import Mathlib

/-!
Verification development for the self-test repository's request-coordination
and LLM-output-normalization layer.

The JavaScript/TypeScript sources are shallowly embedded: JS values are the
`Json` inductive below (JS numbers are modelled as exact rationals, so IEEE
floating-point rounding error is not modelled; `undefined` object fields are
modelled by the key being absent), stateful code becomes explicit state
passing, fallible code returns `Except`/`Option`, and the single-threaded
event loop is modelled by explicit interleaving of program segments between
`await` suspension points.
-/

namespace SelfTest

/-- Model of a JavaScript/JSON value.  Numbers are exact rationals. -/
inductive Json where
  | null : Json
  | bool (b : Bool) : Json
  | num (q : ℚ) : Json
  | str (s : String) : Json
  | arr (elems : List Json) : Json
  | obj (fields : List (String × Json)) : Json
deriving Repr

/-- JS truthiness of a value (`if (v)`): `null`, `false`, `0` and `""` are
falsy, every array and object is truthy.  (`NaN` and `undefined` are not
modelled as values; an absent field is `Option.none` at use sites.) -/
def jsTruthy : Json → Bool
  | .null => false
  | .bool b => b
  | .num q => q != 0
  | .str s => s != ""
  | .arr _ => true
  | .obj _ => true

/-- Field list of a value: objects expose their fields, every other value has
none (object-spread of a primitive yields an empty object in JS). -/
def objFields : Json → List (String × Json)
  | .obj fields => fields
  | _ => []

/-- Property read `v.k`: `some` the field value for objects, `none`
(JS `undefined`) otherwise.  Reading a property of `null` throws in JS; the
one place the source can do that is handled explicitly at its call site. -/
def objGet (v : Json) (k : String) : Option Json :=
  match v with
  | .obj fields => (fields.find? (fun f => f.1 = k)).map Prod.snd
  | _ => none

/-- Update-or-append on a field list: the JS semantics of writing property `k`
(and of `{...o, k: v}`): an existing key keeps its position and gets the new
value, a new key is appended at the end. -/
def setField : List (String × Json) → String → Json → List (String × Json)
  | [], k, v => [(k, v)]
  | (k', v') :: rest, k, v =>
      if k' = k then (k, v) :: rest else (k', v') :: setField rest k v

/-- Property write `o.k = v` (spread of a non-object first yields `{}`). -/
def objSet (o : Json) (k : String) (v : Json) : Json :=
  .obj (setField (objFields o) k v)

/-- Nullish coalescing `a ?? b` where `a` is an optional property read:
falls through on absent (`undefined`) or `null`. -/
def jsNullish (a : Option Json) (b : Json) : Json :=
  match a with
  | some .null => b
  | none => b
  | some v => v

/-- Like `jsNullish` but keeps the fallthrough optional (for `a.x ?? a.y`
where both may be absent). -/
def jsNullishOpt (a b : Option Json) : Option Json :=
  match a with
  | some .null => b
  | none => b
  | some v => some v

/-- JS logical-or `a || b` where `a` is an optional property read. -/
def jsOr (a : Option Json) (b : Json) : Json :=
  match a with
  | some v => if jsTruthy v then v else b
  | none => b

/-- String rendering of a JS number.  Canonical (matches JS `String(n)`) for
integers, which are the only numbers the modelled code renders; non-integral
rationals are rendered as `num/den`, standing in for JS float formatting. -/
def numToStr (q : ℚ) : String :=
  if q.den = 1 then toString q.num else toString q.num ++ "/" ++ toString q.den

/-- JS `Math.round`: round half toward positive infinity. -/
def jsRound (q : ℚ) : ℤ :=
  (q + 1 / 2).floor

/-- Digits-only check used by the canonical-integer parse below. -/
def allDigits (cs : List Char) : Bool :=
  cs.all (fun c => c.isDigit)

/-- Natural-number value of a digit list (most significant first). -/
def natOfDigits : List Char → ℕ → ℕ
  | [], acc => acc
  | c :: rest, acc => natOfDigits rest (acc * 10 + (c.toNat - '0'.toNat))

/-- Model of JS `Number(s)` restricted to canonical integer strings: returns
the integer for strings of the exact form JS `String(n)` produces for an
integer `n`, and `none` (standing for `NaN`) otherwise.  The source only
applies `Number` to keys that were themselves produced by `String(id)`, so
this restriction is faithful on every reachable input of integer ids. -/
def canonIntOfStr (s : String) : Option ℤ :=
  match s.toList with
  | [] => none
  | '-' :: rest =>
      if rest ≠ [] ∧ allDigits rest ∧ (rest.head? ≠ some '0' ∨ rest.length = 1) ∧
          natOfDigits rest 0 ≠ 0 then
        some (-(natOfDigits rest 0 : ℤ))
      else none
  | cs =>
      if allDigits cs ∧ (cs.head? ≠ some '0' ∨ cs.length = 1) then
        some (natOfDigits cs 0 : ℤ)
      else none

mutual

/-- String rendering of a JS value (`String(v)`): identity on strings,
`"null"` for null, number/boolean rendering, `Array.prototype.toString`
(comma join, with `null` elements blank) for arrays, and the generic
`"[object Object]"` for objects. -/
def jsToString : Json → String
  | .null => "null"
  | .bool b => if b then "true" else "false"
  | .num q => numToStr q
  | .str s => s
  | .arr elems => jsJoinComma elems
  | .obj _ => "[object Object]"

/-- Comma join used by `Array.prototype.toString`; `null` elements render
as the empty string. -/
def jsJoinComma : List Json → String
  | [] => ""
  | [x] =>
      match x with
      | .null => ""
      | v => jsToString v
  | x :: rest =>
      (match x with
        | .null => ""
        | v => jsToString v) ++ "," ++ jsJoinComma rest

end

/-- Dynamic subscript `base[key]` as the source uses it on the answers map:
objects look up the field, arrays index by a canonical numeric string, and
strings index to a one-character string; everything else is `undefined`. -/
def jsIndex (base : Json) (key : String) : Option Json :=
  match base with
  | .obj fields => (fields.find? (fun f => f.1 = key)).map Prod.snd
  | .arr elems =>
      match canonIntOfStr key with
      | some n => if h : 0 ≤ n ∧ n.toNat < elems.length then
            some (elems.get ⟨n.toNat, h.2⟩) else none
      | none => none
  | .str s =>
      match canonIntOfStr key with
      | some n => if h : 0 ≤ n ∧ n.toNat < s.toList.length then
            some (.str (String.mk [s.toList.get ⟨n.toNat, h.2⟩])) else none
      | none => none
  | _ => none

/-! JSON text parser: an executable model of `JSON.parse`, used by the stream
framer (which parses each complete line) and by `safeJsonParse` in
`mcp-handler.ts`.  The model covers the JSON grammar with two restrictions
that are unreachable in the claims under study: `\u` escapes for surrogate
code points are rejected, and numbers are exact rationals. -/

/-- JSON whitespace characters. -/
def isJsonWs (c : Char) : Bool :=
  c = ' ' || c = '\t' || c = '\n' || c = '\r'

/-- Drop leading JSON whitespace. -/
def skipWs (cs : List Char) : List Char :=
  cs.dropWhile isJsonWs

/-- Single-character JSON string escapes. -/
def escCharVal : Char → Option Char
  | '"' => some '"'
  | '\\' => some '\\'
  | '/' => some '/'
  | 'b' => some (Char.ofNat 8)
  | 'f' => some (Char.ofNat 12)
  | 'n' => some '\n'
  | 'r' => some '\r'
  | 't' => some '\t'
  | _ => none

/-- Hexadecimal digit value. -/
def hexVal (c : Char) : Option ℕ :=
  if c.isDigit then some (c.toNat - '0'.toNat)
  else if 'a' ≤ c ∧ c ≤ 'f' then some (c.toNat - 'a'.toNat + 10)
  else if 'A' ≤ c ∧ c ≤ 'F' then some (c.toNat - 'A'.toNat + 10)
  else none

/-- Parse the body of a JSON string after the opening quote, returning the
decoded characters and the remaining input after the closing quote. -/
def pStrBody : List Char → Option (List Char × List Char)
  | [] => none
  | '"' :: rest => some ([], rest)
  | '\\' :: 'u' :: a :: b :: c :: d :: rest =>
      match hexVal a, hexVal b, hexVal c, hexVal d with
      | some ha, some hb, some hc, some hd =>
          let n := ((ha * 16 + hb) * 16 + hc) * 16 + hd
          if n.isValidChar then
            (pStrBody rest).map (fun r => (Char.ofNat n :: r.1, r.2))
          else none
      | _, _, _, _ => none
  | '\\' :: e :: rest =>
      match escCharVal e with
      | some c => (pStrBody rest).map (fun r => (c :: r.1, r.2))
      | none => none
  | c :: rest =>
      if c.toNat < 32 then none
      else (pStrBody rest).map (fun r => (c :: r.1, r.2))

/-- Span of leading decimal digits. -/
def spanDigits (cs : List Char) : List Char × List Char :=
  (cs.takeWhile Char.isDigit, cs.dropWhile Char.isDigit)

/-- Signed exponent digits of a JSON number. -/
def pNumExpTail (mantissa : ℚ) (cs : List Char) : Option (ℚ × List Char) :=
  let (eneg, cs1) := match cs with
    | '-' :: t => (true, t)
    | '+' :: t => (false, t)
    | _ => (false, cs)
  let (eds, rest) := spanDigits cs1
  if eds = [] then none
  else
    let e := natOfDigits eds 0
    let v := if eneg then mantissa / ((10 : ℚ) ^ e) else mantissa * ((10 : ℚ) ^ e)
    some (v, rest)

/-- Exponent part of a JSON number. -/
def pNumExp (neg : Bool) (mantissa : ℚ) (cs : List Char) : Option (ℚ × List Char) :=
  let signed : ℚ := if neg then -mantissa else mantissa
  match cs with
  | 'e' :: t => pNumExpTail signed t
  | 'E' :: t => pNumExpTail signed t
  | _ => some (signed, cs)

/-- Parse a JSON number (`-? int frac? exp?`, with the JSON leading-zero
rule), returning its exact rational value. -/
def pNum (cs : List Char) : Option (ℚ × List Char) :=
  let (neg, cs1) := match cs with
    | '-' :: t => (true, t)
    | _ => (false, cs)
  let intPart : Option (List Char × List Char) := match cs1 with
    | '0' :: rest => some (['0'], rest)
    | c :: _ => if c.isDigit ∧ c ≠ '0' then some (spanDigits cs1) else none
    | [] => none
  match intPart with
  | none => none
  | some (ds, rest1) =>
      let iv : ℚ := (natOfDigits ds 0 : ℚ)
      let (fv, rest2) : ℚ × List Char := match rest1 with
        | '.' :: t =>
            let (fds, r) := spanDigits t
            if fds = [] then ((0 : ℚ), '.' :: t)
            else ((natOfDigits fds 0 : ℚ) / ((10 : ℚ) ^ fds.length), r)
        | _ => ((0 : ℚ), rest1)
      -- a malformed fraction ("1." with no digit) must fail the whole parse
      match rest1 with
      | '.' :: t =>
          if (spanDigits t).1 = [] then none
          else pNumExp neg (iv + fv) rest2
      | _ => pNumExp neg (iv + fv) rest2

mutual

/-- Parse a JSON value (fuel-based recursion; the top-level entry point
supplies more fuel than any input can consume). -/
def pVal : ℕ → List Char → Option (Json × List Char)
  | 0, _ => none
  | fuel + 1, cs =>
      match skipWs cs with
      | 'n' :: 'u' :: 'l' :: 'l' :: rest => some (.null, rest)
      | 't' :: 'r' :: 'u' :: 'e' :: rest => some (.bool true, rest)
      | 'f' :: 'a' :: 'l' :: 's' :: 'e' :: rest => some (.bool false, rest)
      | '"' :: rest => (pStrBody rest).map (fun r => (.str (String.mk r.1), r.2))
      | '[' :: rest =>
          match skipWs rest with
          | ']' :: r2 => some (.arr [], r2)
          | _ => (pElems fuel rest).map (fun r => (.arr r.1, r.2))
      | '{' :: rest =>
          match skipWs rest with
          | '}' :: r2 => some (.obj [], r2)
          | _ =>
              (pFields fuel rest).map (fun r =>
                (.obj (r.1.foldl (fun acc f => setField acc f.1 f.2) []), r.2))
      | other => (pNum other).map (fun r => (.num r.1, r.2))

/-- Parse one-or-more comma-separated array elements up to `]`. -/
def pElems : ℕ → List Char → Option (List Json × List Char)
  | 0, _ => none
  | fuel + 1, cs => do
      let (v, r) ← pVal fuel cs
      match skipWs r with
      | ',' :: r2 => do
          let (vs, r3) ← pElems fuel r2
          pure (v :: vs, r3)
      | ']' :: r2 => pure ([v], r2)
      | _ => none

/-- Parse one-or-more `"key": value` members up to `}` (in source order;
the caller folds them with `setField`, giving the JS last-duplicate-wins,
first-position object semantics). -/
def pFields : ℕ → List Char → Option (List (String × Json) × List Char)
  | 0, _ => none
  | fuel + 1, cs =>
      match skipWs cs with
      | '"' :: rest => do
          let (k, r) ← pStrBody rest
          match skipWs r with
          | ':' :: r2 => do
              let (v, r3) ← pVal fuel r2
              match skipWs r3 with
              | ',' :: r4 => do
                  let (fs, r5) ← pFields fuel r4
                  pure ((String.mk k, v) :: fs, r5)
              | '}' :: r4 => pure ([(String.mk k, v)], r4)
              | _ => none
          | _ => none
      | _ => none

end

/-- Model of `JSON.parse` on a character list: parse one value, allow
surrounding whitespace, reject trailing content. -/
def jsonParseChars (cs : List Char) : Option Json :=
  match pVal (cs.length + 1) cs with
  | some (v, rest) => if skipWs rest = [] then some v else none
  | none => none

/-- Model of `JSON.parse` on a string. -/
def jsonParse (s : String) : Option Json :=
  jsonParseChars s.toList

/-! Transport framer, from `src/src/lib/agent-coordinator.js`
(`setupCommunication`, lines 140-171): each stdout chunk is appended to a
string buffer, the buffer is split on `"\n"`, the trailing (incomplete)
segment is kept as the new buffer, and each complete line is trimmed,
pre-filtered (must start with `{` and contain one of the substrings
`"jsonrpc"`, `"id"`, `"method"`), JSON-parsed, and on success passed to
`handleResponse`; parse failures only log.  The legacy framer in
`src/lib/agent-coordinator.js` (lines 42-63) has no pre-filter: every line
with non-blank trim is JSON-parsed and passed to `handleResponse`. -/

/-- Whitespace removed by JS `String.prototype.trim`. -/
def isJsTrimWs (c : Char) : Bool :=
  c = ' ' || c = '\t' || c = '\n' || c = '\r' || c = Char.ofNat 11 || c = Char.ofNat 12

/-- Model of JS `String.prototype.trim`. -/
def jsTrim (cs : List Char) : List Char :=
  ((cs.dropWhile isJsTrimWs).reverse.dropWhile isJsTrimWs).reverse

/-- Model of JS `String.prototype.split("\n")`: always returns at least one
segment; a trailing newline yields a final empty segment. -/
def splitNl : List Char → List (List Char)
  | [] => [[]]
  | c :: rest =>
      if c = '\n' then [] :: splitNl rest
      else (c :: (splitNl rest).headD []) :: (splitNl rest).tail

/-- Leading-match test: `leadsWith sub cs` is true when `sub` is an initial
segment of `cs`. -/
def leadsWith : List Char → List Char → Bool
  | [], _ => true
  | _ :: _, [] => false
  | s :: ss, h :: hs => s = h && leadsWith ss hs

/-- Substring containment, the model of JS `String.prototype.includes`. -/
def hasSub (sub : List Char) : List Char → Bool
  | [] => sub.isEmpty
  | h :: t => leadsWith sub (h :: t) || hasSub sub t

/-- The current coordinator's textual pre-filter on a trimmed line: nonempty,
starts with `{`, and contains `"jsonrpc"`, `"id"` or `"method"` as a raw
substring (`String.prototype.includes`). -/
def lineAccepted (t : List Char) : Bool :=
  !t.isEmpty && t.head? = some '{' &&
    (hasSub "\"jsonrpc\"".toList t || hasSub "\"id\"".toList t ||
      hasSub "\"method\"".toList t)

/-- Processing of one complete line by the current framer: the parsed message
that gets passed to `handleResponse`, or `none` when the line is discarded
(pre-filter failure or JSON parse failure; both are silent except for a log).
-/
def handleLine (line : List Char) : Option Json :=
  if lineAccepted (jsTrim line) then jsonParseChars (jsTrim line) else none

/-- Processing of one complete line by the legacy framer: any line with
non-blank trim is JSON-parsed (untrimmed, as in the source) and forwarded on
success. -/
def handleLineLegacy (line : List Char) : Option Json :=
  if (jsTrim line).isEmpty then none else jsonParseChars line

/-- One stdout `data` event of the current framer: returns the messages
passed to `handleResponse` (in order) and the new buffer (the final segment
of the split, which `lines.pop() || ""` keeps as the incomplete line). -/
def feed (buffer chunk : List Char) : List Json × List Char :=
  ((splitNl (buffer ++ chunk)).dropLast.filterMap handleLine,
    (splitNl (buffer ++ chunk)).getLastD [])

/-- One stdout `data` event of the legacy framer. -/
def feedLegacy (buffer chunk : List Char) : List Json × List Char :=
  ((splitNl (buffer ++ chunk)).dropLast.filterMap handleLineLegacy,
    (splitNl (buffer ++ chunk)).getLastD [])

/-! Request correlator, from `src/src/lib/agent-coordinator.js`.  The pending
map `responseCallbacks` is a JS `Map` keyed by the numeric request id; the
stored `{resolve, reject}` pair is modelled by an opaque callback token. -/

/-- Outcome delivered to a pending callback. -/
inductive CbAction where
  | resolved (token : ℕ) (result : Option Json)
  | rejected (token : ℕ) (msg : String)
deriving Repr

/-- Remove the entry with the given key (JS `Map.delete`). -/
def removeKey : List (ℕ × ℕ) → ℕ → List (ℕ × ℕ)
  | [], _ => []
  | (k, v) :: rest, key => if k = key then rest else (k, v) :: removeKey rest key

/-- Error message derivation `message.error.message || "MCP tool call
failed"` (a truthy non-string message is string-converted by `new Error`). -/
def errMsgOf (err : Json) : String :=
  match objGet err "message" with
  | some m => if jsTruthy m then jsToString m else "MCP tool call failed"
  | none => "MCP tool call failed"

/-- Model of `handleResponse` (lines 322-333): fires and removes the pending
callback whose key equals the message's numeric `id`; every other message is
dropped.  A falsy `id` (absent, `null`, `0`, `""`, `false`) fails the
`message.id &&` guard, and a truthy non-number `id` never equals a numeric
`Map` key (JS `Map.has` uses SameValueZero without coercion), so both leave
the map untouched and fire nothing. -/
def handleResponse (message : Json) (pending : List (ℕ × ℕ)) :
    List (ℕ × ℕ) × Option CbAction :=
  match objGet message "id" with
  | some (.num q) =>
      if q = 0 then (pending, none)
      else
        match pending.find? (fun e => decide ((e.1 : ℚ) = q)) with
        | some (k, token) =>
            (removeKey pending k,
              some (match objGet message "error" with
                | some err =>
                    if jsTruthy err then .rejected token (errMsgOf err)
                    else .resolved token (objGet message "result")
                | none => .resolved token (objGet message "result")))
        | none => (pending, none)
  | _ => (pending, none)

/-! Framer lemmas for the buffering claims. -/

theorem splitNl_ne_nil (cs : List Char) : splitNl cs ≠ [] := by
  match cs with
  | [] => simp [splitNl]
  | c :: rest =>
      simp only [splitNl]
      split <;> simp

theorem splitNl_cons_of_ne {c : Char} (rest : List Char) (hc : c ≠ '\n') :
    splitNl (c :: rest) = (c :: (splitNl rest).headD []) :: (splitNl rest).tail := by
  simp [splitNl, hc]

theorem splitNl_append (xs ys : List Char) :
    splitNl (xs ++ ys) =
      (splitNl xs).dropLast ++ splitNl ((splitNl xs).getLastD [] ++ ys) := by
  induction xs with
  | nil => simp [splitNl]
  | cons c rest ih =>
      obtain ⟨q, qs, hP⟩ : ∃ q qs, splitNl rest = q :: qs := by
        match h : splitNl rest with
        | [] => exact absurd h (splitNl_ne_nil rest)
        | q :: qs => exact ⟨q, qs, rfl⟩
      rw [hP] at ih
      by_cases hc : c = '\n'
      · subst hc
        rw [List.cons_append]
        simp only [splitNl, if_pos rfl, hP, ih]
        match qs with
        | [] => simp
        | q' :: qs' => simp [List.dropLast_cons_of_ne_nil, List.getLastD_cons]
      · rw [List.cons_append, splitNl_cons_of_ne _ hc, splitNl_cons_of_ne _ hc, hP, ih]
        match qs with
        | [] =>
            simp only [List.dropLast_single, List.nil_append, List.getLastD_cons,
              List.getLastD_nil, List.headD_cons, List.tail_cons]
            rw [List.cons_append, splitNl_cons_of_ne _ hc]
        | q' :: qs' =>
            simp only [List.dropLast_cons_of_ne_nil (List.cons_ne_nil q' qs'),
              List.getLastD_cons, List.headD_cons, List.tail_cons, List.cons_append]

theorem splitNl_of_no_newline {s : List Char} (h : '\n' ∉ s) : splitNl s = [s] := by
  induction s with
  | nil => rfl
  | cons c rest ih =>
      simp only [List.mem_cons, not_or] at h
      have hc : c ≠ '\n' := fun e => h.1 e.symm
      rw [splitNl_cons_of_ne _ hc, ih h.2]
      rfl

theorem splitNl_line {s : List Char} (h : '\n' ∉ s) :
    splitNl (s ++ ['\n']) = [s, []] := by
  induction s with
  | nil => rfl
  | cons c rest ih =>
      simp only [List.mem_cons, not_or] at h
      have hc : c ≠ '\n' := fun e => h.1 e.symm
      rw [List.cons_append, splitNl_cons_of_ne _ hc, ih h.2]
      rfl

theorem getLastD_append_right {α : Type} (A : List α) {Q : List α} (d : α)
    (h : Q ≠ []) : (A ++ Q).getLastD d = Q.getLastD d := by
  rw [List.getLastD_eq_getLast?, List.getLastD_eq_getLast?, List.getLast?_append]
  match h' : Q.getLast? with
  | some v => simp
  | none =>
      rw [List.getLast?_eq_none_iff] at h'
      exact absurd h' h

/-- Feeding a stream in two chunks delivers the same messages and leaves the
same buffer as feeding it in one chunk (the framer is a stream
homomorphism). -/
theorem feed_feed (buf c1 c2 : List Char) :
    (feed buf c1).1 ++ (feed (feed buf c1).2 c2).1 = (feed buf (c1 ++ c2)).1 ∧
      (feed (feed buf c1).2 c2).2 = (feed buf (c1 ++ c2)).2 := by
  have happ := splitNl_append (buf ++ c1) c2
  have hne := splitNl_ne_nil ((splitNl (buf ++ c1)).getLastD [] ++ c2)
  unfold feed
  dsimp only
  rw [← List.append_assoc]
  constructor
  · rw [happ, List.dropLast_append_of_ne_nil _ hne, List.filterMap_append]
  · rw [happ, getLastD_append_right _ _ hne]

/-- Composition lemma for the legacy framer, identical to `feed_feed`. -/
theorem feedLegacy_feed (buf c1 c2 : List Char) :
    (feedLegacy buf c1).1 ++ (feedLegacy (feedLegacy buf c1).2 c2).1 =
        (feedLegacy buf (c1 ++ c2)).1 ∧
      (feedLegacy (feedLegacy buf c1).2 c2).2 = (feedLegacy buf (c1 ++ c2)).2 := by
  have happ := splitNl_append (buf ++ c1) c2
  have hne := splitNl_ne_nil ((splitNl (buf ++ c1)).getLastD [] ++ c2)
  unfold feedLegacy
  dsimp only
  rw [← List.append_assoc]
  constructor
  · rw [happ, List.dropLast_append_of_ne_nil _ hne, List.filterMap_append]
  · rw [happ, getLastD_append_right _ _ hne]

/-- A message has the JSON-RPC envelope shape when it carries an `id`,
`method` or `jsonrpc` key. -/
def isJsonRpcShaped (m : Json) : Bool :=
  (objGet m "id").isSome || (objGet m "method").isSome || (objGet m "jsonrpc").isSome

/-- Decidable check whether a response message's `id` matches some pending
request: a truthy numeric `id` equal (as a JS number) to a key of the
pending-callback map. -/
def idMatchesPendingB (message : Json) (pending : List (ℕ × ℕ)) : Bool :=
  match objGet message "id" with
  | some (.num q) => q ≠ 0 && pending.any (fun e => decide ((e.1 : ℚ) = q))
  | _ => false

/-- C4: a JSON-RPC response whose id matches no currently pending request
(an unknown id, an already-completed id, or an id whose 30-second timeout
already removed and rejected the entry) is dropped by `handleResponse`: no
callback fires and the pending-callback map is returned unchanged, entry for
entry.  The embedding is a total function, so no exception is raised on this
path. -/
theorem unmatched_response_dropped (message : Json) (pending : List (ℕ × ℕ))
    (h : idMatchesPendingB message pending = false) :
    handleResponse message pending = (pending, none) := by
  unfold idMatchesPendingB at h
  unfold handleResponse
  rcases hid : objGet message "id" with _ | v
  · rfl
  · cases v with
    | num q =>
        rw [hid] at h
        dsimp only at h ⊢
        by_cases hq : q = 0
        · rw [if_pos hq]
        · rw [if_neg hq]
          have hany : pending.any (fun e => decide ((e.1 : ℚ) = q)) = false := by
            cases hand : pending.any (fun e => decide ((e.1 : ℚ) = q)) with
            | false => rfl
            | true => simp [hand, hq] at h
          have hfind : pending.find? (fun e => decide ((e.1 : ℚ) = q)) = none := by
            rw [List.find?_eq_none]
            intro x hx
            have := List.any_eq_false.mp hany x hx
            simpa using this
          rw [hfind]
    | null => rfl
    | bool b => rfl
    | str s => rfl
    | arr xs => rfl
    | obj fs => rfl

/-- C4 witness: a concrete response with unknown id `99` against a pending
map holding id `1` is dropped and the map is unchanged. -/
theorem unmatched_response_dropped_witness :
    handleResponse (.obj [("jsonrpc", .str "2.0"), ("id", .num 99),
        ("result", .obj [])]) [(1, 7)] = ([(1, 7)], none) :=
  unmatched_response_dropped _ _ (by decide)

/-- C5: a newline-terminated message `s ++ "\n"` delivered split across two
chunks, at any split point, yields exactly the one message `m` that the line
`s` parses to — not zero and not two — and leaves an empty buffer; this holds
for the current framer (`feed`) and the legacy framer (`feedLegacy`) alike.
-/
theorem split_chunk_single_message (s c1 c2 : List Char) (m : Json)
    (hnl : '\n' ∉ s) (hsplit : c1 ++ c2 = s ++ ['\n'])
    (hline : handleLine s = some m) (hlineL : handleLineLegacy s = some m) :
    ((feed [] c1).1 ++ (feed (feed [] c1).2 c2).1 = [m] ∧
        (feed (feed [] c1).2 c2).2 = []) ∧
      ((feedLegacy [] c1).1 ++ (feedLegacy (feedLegacy [] c1).2 c2).1 = [m] ∧
        (feedLegacy (feedLegacy [] c1).2 c2).2 = []) := by
  have key : feed [] (s ++ ['\n']) = ([m], []) := by
    unfold feed
    rw [List.nil_append, splitNl_line hnl]
    simp [hline]
  have keyL : feedLegacy [] (s ++ ['\n']) = ([m], []) := by
    unfold feedLegacy
    rw [List.nil_append, splitNl_line hnl]
    simp [hlineL]
  obtain ⟨hm, hb⟩ := feed_feed [] c1 c2
  obtain ⟨hmL, hbL⟩ := feedLegacy_feed [] c1 c2
  rw [hsplit, key] at hm hb
  rw [hsplit, keyL] at hmL hbL
  exact ⟨⟨hm, hb⟩, ⟨hmL, hbL⟩⟩

unseal Rat.add Rat.mul Rat.sub Rat.inv in
/-- C5 witness: the spec's concrete buffering scenario — feeding
`'{"jsonrpc":"2.0","id":1,'` and then `'"result":{}}\n'` as two chunks yields
exactly one parsed message. -/
theorem split_chunk_single_message_witness :
    (feed [] "\x7b\"jsonrpc\":\"2.0\",\"id\":1,".toList).1 ++
        (feed (feed [] "\x7b\"jsonrpc\":\"2.0\",\"id\":1,".toList).2
          "\"result\":\x7b\x7d\x7d\n".toList).1 =
      [.obj [("jsonrpc", .str "2.0"), ("id", .num 1), ("result", .obj [])]] :=
  (split_chunk_single_message
    "\x7b\"jsonrpc\":\"2.0\",\"id\":1,\"result\":\x7b\x7d\x7d".toList
    "\x7b\"jsonrpc\":\"2.0\",\"id\":1,".toList
    "\"result\":\x7b\x7d\x7d\n".toList
    (.obj [("jsonrpc", .str "2.0"), ("id", .num 1), ("result", .obj [])])
    (by decide) rfl rfl rfl).1.1

/-- C6 counterexample: the line `{"note":"id"}` is valid JSON without an
`id`, `method` or `jsonrpc` key, yet it passes the coordinator's substring
pre-filter (it contains the raw text `"id"`) and is parsed and passed to
`handleResponse` — contradicting the claim that a valid-JSON non-envelope
line is never forwarded to the response handler.  (`feed`'s first component
is, by definition, the list of messages handed to `handleResponse`.) -/
theorem nonenvelope_line_forwarded :
    (feed [] "\x7b\"note\":\"id\"\x7d\n".toList).1 = [.obj [("note", .str "id")]] ∧
      isJsonRpcShaped (.obj [("note", .str "id")]) = false :=
  ⟨rfl, rfl⟩

unseal Rat.add Rat.mul Rat.sub Rat.inv in
/-- C6 amended: (1) a line failing the textual pre-filter (empty trim, no
leading `{`, or none of the substrings `"jsonrpc"`, `"id"`, `"method"`) is
discarded without being forwarded; (2) a line that fails to parse as JSON is
likewise discarded; (3) a forwarded message without an `id`/`method`/
`jsonrpc` key is ignored by `handleResponse` (no callback, pending map
unchanged) — so a non-envelope line passing the pre-filter is forwarded but
has no effect; and (4) a valid JSON-RPC line interleaved with a log line and
a filtered valid-JSON line is still delivered, alone.  The framer and
`handleResponse` are total functions, so no exception aborts the stream. -/
theorem nonprotocol_line_handling :
    (∀ line : List Char, lineAccepted (jsTrim line) = false → handleLine line = none) ∧
    (∀ line : List Char, jsonParseChars (jsTrim line) = none → handleLine line = none) ∧
    (∀ (m : Json) (pending : List (ℕ × ℕ)), isJsonRpcShaped m = false →
      handleResponse m pending = (pending, none)) ∧
    (feed []
        "Server started\n\x7b\"a\":1\x7d\n\x7b\"jsonrpc\":\"2.0\",\"id\":3,\"result\":5\x7d\n".toList).1 =
      [.obj [("jsonrpc", .str "2.0"), ("id", .num 3), ("result", .num 5)]] := by
  refine ⟨?_, ?_, ?_, by rfl⟩
  · intro line hacc
    unfold handleLine
    rw [hacc]
    rfl
  · intro line hparse
    unfold handleLine
    split
    · exact hparse
    · rfl
  · intro m pending hshape
    unfold isJsonRpcShaped at hshape
    unfold handleResponse
    rcases hid : objGet m "id" with _ | v
    · rfl
    · rw [hid] at hshape
      simp at hshape

/-- C6 amended witness: a plain log line and a malformed-JSON line are
discarded, and a forwarded non-envelope message leaves a concrete pending
map untouched. -/
theorem nonprotocol_line_handling_witness :
    handleLine "Server started".toList = none ∧
    handleLine "\x7b\"id\":".toList = none ∧
    handleResponse (.obj [("note", .str "id")]) [(1, 7)] = ([(1, 7)], none) :=
  ⟨nonprotocol_line_handling.1 _ (by decide),
    nonprotocol_line_handling.2.1 _ rfl,
    nonprotocol_line_handling.2.2.1 _ _ rfl⟩

/-! Request correlator state machine, from `src/src/lib/agent-coordinator.js`.
The constructor (lines 7-13) starts `requestId` at 0 with an empty
`responseCallbacks` map; both stdio send paths (`sendInitializeRequest`,
lines 190-221, and the child-process branch of `sendToolCall`, lines 293-307)
allocate `++this.requestId` and record a pending callback under the new id;
the HTTP/direct branches of `sendToolCall` allocate `++this.requestId`
without recording a callback; the 30-second timeout (lines 313-318) deletes
and rejects the entry if it is still present; an incoming stdout message goes
through `handleResponse`.  The state is a field of the coordinator instance,
so two instances have independent counters and maps. -/

/-- Mutable coordinator state: the monotonic id counter and the pending
callback map (JS `Map`, modelled as an association list with unique keys). -/
structure Coord where
  requestId : ℕ
  pending : List (ℕ × ℕ)
deriving Repr

/-- Constructor state: `requestId = 0`, no pending callbacks. -/
def coordInit : Coord := ⟨0, []⟩

/-- JS `Map.set`: replace the value of an existing key in place, or append a
new entry. -/
def setPending : List (ℕ × ℕ) → ℕ → ℕ → List (ℕ × ℕ)
  | [], k, tok => [(k, tok)]
  | (k', t') :: rest, k, tok =>
      if k' = k then (k, tok) :: rest else (k', t') :: setPending rest k tok

/-- The correlator-visible operations of one coordinator instance. -/
inductive CoordOp where
  | sendToolChild (token : ℕ)
  | sendInit (token : ℕ)
  | sendToolDirect
  | timeoutFire (id : ℕ)
  | recv (message : Json)

/-- One correlator step; returns the new state and the id issued by the
operation, if it issues one. -/
def coordStep (s : Coord) : CoordOp → Coord × Option ℕ
  | .sendToolChild tok =>
      (⟨s.requestId + 1, setPending s.pending (s.requestId + 1) tok⟩,
        some (s.requestId + 1))
  | .sendInit tok =>
      (⟨s.requestId + 1, setPending s.pending (s.requestId + 1) tok⟩,
        some (s.requestId + 1))
  | .sendToolDirect => (⟨s.requestId + 1, s.pending⟩, some (s.requestId + 1))
  | .timeoutFire id =>
      (⟨s.requestId,
        if (s.pending.find? (fun e => decide (e.1 = id))).isSome then
          removeKey s.pending id
        else s.pending⟩, none)
  | .recv message => (⟨s.requestId, (handleResponse message s.pending).1⟩, none)

/-- Run a sequence of operations, collecting the issued ids in order. -/
def coordRun : Coord → List CoordOp → Coord × List ℕ
  | s, [] => (s, [])
  | s, op :: ops =>
      ((coordRun (coordStep s op).1 ops).1,
        (coordStep s op).2.toList ++ (coordRun (coordStep s op).1 ops).2)

/-- Operations that allocate a request id. -/
def isSend : CoordOp → Bool
  | .sendToolChild _ => true
  | .sendInit _ => true
  | .sendToolDirect => true
  | _ => false

/-- Correlator invariant: pending keys are unique and lie in
`[1, requestId]`. -/
def coordInv (s : Coord) : Prop :=
  (s.pending.map Prod.fst).Nodup ∧
    ∀ k ∈ s.pending.map Prod.fst, 1 ≤ k ∧ k ≤ s.requestId

theorem keys_setPending_fresh {l : List (ℕ × ℕ)} {k tok : ℕ}
    (h : k ∉ l.map Prod.fst) :
    (setPending l k tok).map Prod.fst = l.map Prod.fst ++ [k] := by
  induction l with
  | nil => rfl
  | cons e rest ih =>
      simp only [List.map_cons, List.mem_cons, not_or] at h
      simp only [setPending]
      rw [if_neg (Ne.symm h.1)]
      simp [ih h.2]

theorem keys_removeKey_sublist (l : List (ℕ × ℕ)) (k : ℕ) :
    ((removeKey l k).map Prod.fst).Sublist (l.map Prod.fst) := by
  induction l with
  | nil => simp [removeKey]
  | cons e rest ih =>
      simp only [removeKey]
      split
      · simp
      · simpa using ih.cons₂ e.1

theorem handleResponse_fst (m : Json) (p : List (ℕ × ℕ)) :
    ((handleResponse m p).1).map Prod.fst |>.Sublist (p.map Prod.fst) := by
  unfold handleResponse
  split
  · split
    · exact List.Sublist.refl _
    · split
      · simpa using keys_removeKey_sublist p _
      · exact List.Sublist.refl _
  · exact List.Sublist.refl _

theorem coordStep_inv (s : Coord) (op : CoordOp) (hinv : coordInv s) :
    coordInv (coordStep s op).1 ∧
      (coordStep s op).1.requestId =
        s.requestId + (if isSend op then 1 else 0) ∧
      (coordStep s op).2 = if isSend op then some (s.requestId + 1) else none := by
  obtain ⟨hnd, hbd⟩ := hinv
  have fresh : s.requestId + 1 ∉ s.pending.map Prod.fst := by
    intro hmem
    have := (hbd _ hmem).2
    omega
  cases op with
  | sendToolChild tok =>
      dsimp only [coordStep, isSend]
      refine ⟨⟨?_, ?_⟩, rfl, rfl⟩
      · rw [keys_setPending_fresh fresh]
        refine hnd.append (List.nodup_singleton _) ?_
        intro a ha hb
        simp only [List.mem_singleton] at hb
        subst hb
        exact fresh ha
      · rw [keys_setPending_fresh fresh]
        intro k hk
        dsimp only
        rcases List.mem_append.mp hk with h | h
        · have := hbd _ h
          omega
        · simp at h
          omega
  | sendInit tok =>
      dsimp only [coordStep, isSend]
      refine ⟨⟨?_, ?_⟩, rfl, rfl⟩
      · rw [keys_setPending_fresh fresh]
        refine hnd.append (List.nodup_singleton _) ?_
        intro a ha hb
        simp only [List.mem_singleton] at hb
        subst hb
        exact fresh ha
      · rw [keys_setPending_fresh fresh]
        intro k hk
        dsimp only
        rcases List.mem_append.mp hk with h | h
        · have := hbd _ h
          omega
        · simp at h
          omega
  | sendToolDirect =>
      dsimp only [coordStep, isSend]
      refine ⟨⟨hnd, ?_⟩, rfl, rfl⟩
      intro k hk
      dsimp only
      have := hbd _ hk
      omega
  | timeoutFire id =>
      dsimp only [coordStep, isSend]
      refine ⟨⟨?_, ?_⟩, rfl, rfl⟩
      · split
        · exact hnd.sublist (keys_removeKey_sublist s.pending id)
        · exact hnd
      · split
        · intro k hk
          exact hbd _ ((keys_removeKey_sublist s.pending id).subset hk)
        · exact hbd
  | recv message =>
      dsimp only [coordStep, isSend]
      refine ⟨⟨?_, ?_⟩, rfl, rfl⟩
      · exact hnd.sublist (handleResponse_fst message s.pending)
      · intro k hk
        exact hbd _ ((handleResponse_fst message s.pending).subset hk)

theorem coordRun_spec (ops : List CoordOp) (s : Coord) (hinv : coordInv s) :
    (coordRun s ops).2 = List.range' (s.requestId + 1) (ops.countP isSend) ∧
      (coordRun s ops).1.requestId = s.requestId + ops.countP isSend ∧
      coordInv (coordRun s ops).1 := by
  induction ops generalizing s with
  | nil => simpa [coordRun, List.countP_nil] using hinv
  | cons op ops ih =>
      obtain ⟨hinv', hrid, hiss⟩ := coordStep_inv s op hinv
      obtain ⟨ih1, ih2, ih3⟩ := ih (coordStep s op).1 hinv'
      rw [coordRun]
      dsimp only
      rw [List.countP_cons]
      refine ⟨?_, ?_, ih3⟩
      · rw [ih1, hiss, hrid]
        by_cases hs : isSend op
        · simp only [hs, if_true]
          rw [List.range'_succ]
          simp
        · simp [hs]
      · rw [ih2, hrid]
        by_cases hs : isSend op
        · simp [hs]
          omega
        · simp [hs]

/-- C9: within one coordinator instance (modelled from its constructor state
`coordInit`), the issued request ids are exactly `1, 2, 3, …` — a strictly
increasing sequence starting at 1 in which each new id is the previous id
plus one — and after any sequence of operations the pending-callback map
holds at most one entry per id.  The counter and map live in the instance
state, so they are per instance, not global. -/
theorem request_ids_monotone_pending_unique (ops : List CoordOp) :
    (coordRun coordInit ops).2 = List.range' 1 (ops.countP isSend) ∧
      ((coordRun coordInit ops).1.pending.map Prod.fst).Nodup := by
  obtain ⟨h1, _, h3⟩ :=
    coordRun_spec ops coordInit ⟨List.nodup_nil, by intro k hk; simp [coordInit] at hk⟩
  exact ⟨h1, h3.1⟩

/-! Shared helpers for the `mcp-handler.ts` embedding. -/

/-- JS `Array.prototype.map` with the element index as second callback
argument (`l.map((x, idx) => f idx x)`), generalized over the start index. -/
def mapWithIdx (f : ℕ → α → β) : ℕ → List α → List β
  | _, [] => []
  | i, x :: rest => f i x :: mapWithIdx f (i + 1) rest

/-- Field lookup on a raw field list (`objGet` on the wrapped object). -/
def fGet (fields : List (String × Json)) (k : String) : Option Json :=
  (fields.find? (fun f => f.1 = k)).map Prod.snd

/-- Strip a leading code-fence marker and following whitespace
(`.replace(/^<fence>\s*/, "")` for a literal fence prefix). -/
def stripLead (tag cs : List Char) : List Char :=
  if leadsWith tag cs then (cs.drop tag.length).dropWhile isJsTrimWs else cs

/-- Strip a trailing ```` ``` ```` and preceding whitespace
(`.replace(/\s*```$/, "")`). -/
def stripTrail (cs : List Char) : List Char :=
  let r := cs.reverse
  if leadsWith ['`', '`', '`'] r then ((r.drop 3).dropWhile isJsTrimWs).reverse
  else cs

/-- The two replace pairs of `safeJsonParse` (lines 79-80): first
```` ```json ```` fences, then bare ```` ``` ```` fences. -/
def stripFences (cs : List Char) : List Char :=
  stripTrail (stripLead "```json".toList (stripTrail (stripLead "```".toList cs)))

/-- Index of the last occurrence of a character (`String.lastIndexOf`). -/
def lastIdxOf (c : Char) (cs : List Char) : Option ℕ :=
  match cs.reverse.findIdx? (fun x => x = c) with
  | some i => some (cs.length - 1 - i)
  | none => none

/-- Model of `safeJsonParse` (`mcp-handler.ts` lines 70-96): trim, strip
markdown code fences, cut to the span from the first `{` to the last `}`
when both exist in order, JSON-parse, and fall back to the caller-supplied
object on failure. -/
def safeJsonParse (content : List Char) (fallback : Json) : Json :=
  let j0 := stripFences (jsTrim content)
  let j1 :=
    match j0.findIdx? (fun x => x = '{'), lastIdxOf '}' j0 with
    | some f, some l => if f < l then (j0.drop f).take (l + 1 - f) else j0
    | _, _ => j0
  match jsonParseChars j1 with
  | some v => v
  | none => fallback

/-- JSON string-body escaping for `jsonStringify` (the escapes the envelope
text can need; other control characters pass through unescaped in this
model). -/
def escJsonStr : List Char → List Char
  | [] => []
  | c :: rest =>
      (if c = '"' then ['\\', '"']
       else if c = '\\' then ['\\', '\\']
       else if c = '\n' then ['\\', 'n']
       else if c = '\t' then ['\\', 't']
       else if c = '\r' then ['\\', 'r']
       else [c]) ++ escJsonStr rest

mutual

/-- Model of `JSON.stringify` on the `Json` value model. -/
def jsonStringify : Json → String
  | .null => "null"
  | .bool b => if b then "true" else "false"
  | .num q => numToStr q
  | .str s => "\"" ++ String.mk (escJsonStr s.toList) ++ "\""
  | .arr xs => "[" ++ stringifyElems xs ++ "]"
  | .obj fs => "\x7b" ++ stringifyFields fs ++ "\x7d"

/-- Comma-joined array elements for `jsonStringify`. -/
def stringifyElems : List Json → String
  | [] => ""
  | [x] => jsonStringify x
  | x :: rest => jsonStringify x ++ "," ++ stringifyElems rest

/-- Comma-joined object members for `jsonStringify`. -/
def stringifyFields : List (String × Json) → String
  | [] => ""
  | [(k, v)] => "\"" ++ String.mk (escJsonStr k.toList) ++ "\":" ++ jsonStringify v
  | (k, v) :: rest =>
      "\"" ++ String.mk (escJsonStr k.toList) ++ "\":" ++ jsonStringify v ++ "," ++
        stringifyFields rest

end

/-! Test-generation agent, from `TestGeneratorAgent.generateJrWebTest`
(`mcp-handler.ts` lines 100-273).  The prompt construction and the
chat-completion call are external collaborators; the embedding covers the
deterministic fallback test and the post-parse normalization, as functions of
the raw model output text and the requested question count.  The model is
restricted to natural-number `numQuestions` (the tool schema's type); a
`choices: undefined` member is modelled by omitting the key. -/

/-- One question of the deterministic fallback test (lines 183-204). -/
def fallbackQuestion (n i : ℕ) : Json :=
  .obj ([("id", .num ((i : ℚ) + 1)),
    ("type", .str (if i % 2 = 0 then "mcq" else "short")),
    ("prompt", .str (if i % 2 = 0 then
        "Which JavaScript method is used to add an element to the end of an array? (Question " ++
          toString (i + 1) ++ ")"
      else
        "Explain the difference between let and var in JavaScript. (Question " ++
          toString (i + 1) ++ ")"))] ++
    (if i % 2 = 0 then
      [("choices", .arr [.str "push()", .str "pop()", .str "shift()", .str "unshift()"])]
    else []) ++
    [("answer", .str (if i % 2 = 0 then "push()"
        else "let has block scope while var has function scope")),
      ("rubric", .arr (if i % 2 = 0 then [.str "Correct method for adding to array end"]
        else [.str "Mentions scope difference", .str "Block vs function scope"])),
      ("points", .num ((jsRound ((100 : ℚ) / (n : ℚ)) : ℚ))),
      ("category", .str "javascript")])

/-- One synthetic padding question (lines 222-252); it differs from the
fallback question only in the odd-index rubric (a single entry). -/
def padQuestion (n i : ℕ) : Json :=
  .obj ([("id", .num ((i : ℚ) + 1)),
    ("type", .str (if i % 2 = 0 then "mcq" else "short")),
    ("prompt", .str (if i % 2 = 0 then
        "Which JavaScript method is used to add an element to the end of an array? (Question " ++
          toString (i + 1) ++ ")"
      else
        "Explain the difference between let and var in JavaScript. (Question " ++
          toString (i + 1) ++ ")"))] ++
    (if i % 2 = 0 then
      [("choices", .arr [.str "push()", .str "pop()", .str "shift()", .str "unshift()"])]
    else []) ++
    [("answer", .str (if i % 2 = 0 then "push()"
        else "let has block scope while var has function scope")),
      ("rubric", .arr (if i % 2 = 0 then [.str "Correct method for adding to array end"]
        else [.str "Mentions scope difference"])),
      ("points", .num ((jsRound ((100 : ℚ) / (n : ℚ)) : ℚ))),
      ("category", .str "javascript")])

/-- The fallback test's question list. -/
def fallbackQuestions (n : ℕ) : List Json :=
  (List.range n).map (fallbackQuestion n)

/-- The deterministic fallback test object (lines 182-206). -/
def fallbackTest (n : ℕ) : Json :=
  .obj [("questions", .arr (fallbackQuestions n)), ("totalPoints", .num 100)]

/-- Parsed model output with the questions array ensured (lines 209-217):
when `parsed.questions` is missing or not an array it is replaced by a copy
of the fallback questions.  This models the non-throwing path only:
`generateThrows` holds exactly on the parsed `null`/primitive outputs on
which the source throws at this step instead. -/
def generateParsedBase (content : List Char) (n : ℕ) : Json :=
  let parsed0 := safeJsonParse content (fallbackTest n)
  match objGet parsed0 "questions" with
  | some (.arr _) => parsed0
  | _ => objSet parsed0 "questions" (.arr (fallbackQuestions n))

/-- The question list after the length normalization (lines 219-258): pad
with synthetic questions when too few, truncate when too many (`take n` also
covers the equal-length branch, which the source leaves unchanged). -/
def generatePrepared (content : List Char) (n : ℕ) : List Json :=
  let qs := match objGet (generateParsedBase content n) "questions" with
    | some (.arr xs) => xs
    | _ => []
  if qs.length < n then
    qs ++ (List.range (n - qs.length)).map (fun i => padQuestion n (qs.length + i))
  else qs.take n

/-- Model of `generateJrWebTest`'s returned object on the non-throwing path
(lines 260-272): each question gets
`{...q, id: idx + 1, points: q.points || pointsPer}` and `totalPoints` is
set to 100 on the parsed object. -/
def generateJrWebTest (content : List Char) (n : ℕ) : Json :=
  let pointsPer : ℚ := ((jsRound ((100 : ℚ) / (n : ℚ))) : ℚ)
  let finalQs := mapWithIdx (fun idx q =>
    objSet (objSet q "id" (.num ((idx : ℚ) + 1))) "points"
      (jsOr (objGet q "points") (.num pointsPer))) 0 (generatePrepared content n)
  objSet (objSet (generateParsedBase content n) "questions" (.arr finalQs))
    "totalPoints" (.num 100)

/-- The grading fallback object (lines 329-334). -/
def fallbackGrade : Json :=
  .obj [("results", .arr []), ("overallScore", .num 0), ("totalPoints", .num 100),
    ("summary", .str "Grading failed - please try again")]

/-- The model's `results` array when present (lines 338-340). -/
def gradeRawResults (gradeData : Json) : List Json :=
  match objGet gradeData "results" with
  | some (.arr xs) => xs
  | _ => []

/-- The original question list `test?.result?.questions` when it is an array
(lines 342-344). -/
def gradeQuestions (test : Option Json) : List Json :=
  match (test.bind (objGet · "result")).bind (objGet · "questions") with
  | some (.arr xs) => xs
  | _ => []

/-- `defaultPoints` (line 348). -/
def gradeDefaultPoints (test : Option Json) : ℚ :=
  if 0 < (gradeQuestions test).length then
    ((jsRound ((100 : ℚ) / ((gradeQuestions test).length : ℚ))) : ℚ)
  else 0

/-- `result.id ?? result.questionId` for a (non-null) raw result entry
(lines 354-355, 410). -/
def candId (r : Json) : Option Json :=
  jsNullishOpt (objGet r "id") (objGet r "questionId")

/-- Whether a raw result's candidate id, when a number or string, renders to
the question's key (`String(candidateId) === key`, lines 356-359). -/
def candMatchesKey (r : Json) (key : String) : Bool :=
  match candId r with
  | some (.num q) => numToStr q = key
  | some (.str s) => s = key
  | _ => false

/-- `String(questionId)` for the question at `index`
(`questionId = question?.id ?? index + 1`, lines 351-352). -/
def keyOfQuestion (index : ℕ) (question : Json) : String :=
  jsToString (jsNullish (objGet question "id") (.num ((index : ℚ) + 1)))

/-- The trimmed student answer for a key: `answerMap[key]` (with
`answers || {}`) when it is a string, else `""` (lines 376-377). -/
def studentAnswerOf (answers : Option Json) (key : String) : String :=
  match (match answers with
      | some a => if jsTruthy a then jsIndex a key else none
      | none => none) with
  | some (.str s) => String.mk (jsTrim s.toList)
  | _ => ""

/-- ASCII model of `String.prototype.toLowerCase`. -/
def toLowerStr (s : String) : String :=
  String.mk (s.toList.map Char.toLower)

/-- The `correct` backfill (lines 392-395): when `normalized.correct` is not
a boolean, set it to `numericScore > 0`. -/
def finishCorrect (f : List (String × Json)) : Json :=
  match fGet f "correct" with
  | some (.bool _) => .obj f
  | _ =>
      .obj (setField f "correct"
        (.bool (decide ((match fGet f "score" with
          | some (.num q) => q
          | _ => 0) > (0 : ℚ)))))

/-- One iteration of the per-question normalization loop (lines 350-399),
returning the normalized entry and whether this iteration raises the
`.toLowerCase()` `TypeError` (non-string `expectedAnswer` reached with an
answered question and no numeric model score). -/
def normalizeOnePair (rawResults : List Json) (answers : Option Json)
    (defaultPoints : ℚ) (index : ℕ) (question : Json) : Json × Bool :=
  let questionId : Json := jsNullish (objGet question "id") (.num ((index : ℚ) + 1))
  let key := keyOfQuestion index question
  let existing := rawResults.find? (fun r => candMatchesKey r key)
  let base : List (String × Json) := match existing with
    | some r => objFields r
    | none => []
  let f1 := setField base "id" questionId
  let maxPoints : ℚ := match objGet question "points" with
    | some (.num p) => p
    | _ => defaultPoints
  let f2 := match fGet f1 "max" with
    | some (.num _) => f1
    | _ => setField f1 "max" (.num maxPoints)
  let expectedAnswer : Json := jsNullish (objGet question "answer") (.str "")
  let f3 := match fGet f2 "expected" with
    | some (.str s) => if s = "" then setField f2 "expected" expectedAnswer else f2
    | _ => setField f2 "expected" expectedAnswer
  let studentAnswer := studentAnswerOf answers key
  let f4 := setField f3 "studentAnswer" (.str studentAnswer)
  if studentAnswer = "" then
    (.obj (setField (setField (setField f4 "correct" (.bool false)) "score" (.num 0))
      "feedback" (.str "No answer provided.")), false)
  else
    match fGet f4 "score" with
    | some (.num _) => (finishCorrect f4, false)
    | _ =>
        match expectedAnswer with
        | .str ea =>
            let sc : ℚ := if toLowerStr studentAnswer = toLowerStr ea then maxPoints else 0
            (finishCorrect (setField f4 "score" (.num sc)), false)
        | _ => (.obj f4, true)

/-- Whether the parsed model grading output is JSON `null`: the source then
throws a `TypeError` reading `.results` on it (line 338) before any
normalization runs.  Other primitives are safe there (`.results` on a
number or string is `undefined`), and a parse failure returns the object
fallback. -/
def gradeDataIsNull (content : List Char) : Bool :=
  match safeJsonParse content fallbackGrade with
  | .null => true
  | _ => false

/-- Whether `gradeWebDevTest`'s normalization throws a `TypeError`: the
whole output parsing to JSON `null` (line 338), a `null` entry in the raw
results (dereferenced by the final `forEach` in all cases), or a
`.toLowerCase()` on a non-string expected answer. -/
def gradeThrows (content : List Char) (test answers : Option Json) : Bool :=
  let gradeData := safeJsonParse content fallbackGrade
  let rawResults := gradeRawResults gradeData
  let questions := gradeQuestions test
  gradeDataIsNull content ||
    rawResults.any (fun r => match r with | .null => true | _ => false) ||
    (mapWithIdx (fun i q =>
      (normalizeOnePair rawResults answers (gradeDefaultPoints test) i q).2) 0
        questions).any id

/-- The per-question normalized results, in question order. -/
def gradeNormalizedList (content : List Char) (test answers : Option Json) :
    List Json :=
  mapWithIdx (fun i q =>
      (normalizeOnePair (gradeRawResults (safeJsonParse content fallbackGrade))
        answers (gradeDefaultPoints test) i q).1) 0 (gradeQuestions test)

/-- The key string a normalized entry contributes to the `usedIds` set
(lines 401-407): `String(result.id)` for a numeric or string id, else
`String(idx + 1)`. -/
def usedIdKey (idx : ℕ) (r : Json) : String :=
  match objGet r "id" with
  | some (.num q) => numToStr q
  | some (.str s) => s
  | _ => toString (idx + 1)

/-- JS `Set` insertion: append if absent. -/
def insertIfAbsent (l : List String) (x : String) : List String :=
  if x ∈ l then l else l ++ [x]

/-- The `usedIds` set built from the normalized per-question results. -/
def gradeUsedIds0 (content : List Char) (test answers : Option Json) :
    List String :=
  (mapWithIdx usedIdKey 0 (gradeNormalizedList content test answers)).foldl
    insertIfAbsent []

/-- The appended leftover raw results (lines 409-424): each raw result whose
key is not yet used is appended with its id replaced by `Number(key)` when
that parses, else the key string. -/
def extrasFold (rawResults : List Json) (used0 : List String) :
    List String × List Json :=
  rawResults.foldl (fun acc result =>
    let key := match candId result with
      | some (.num q) => numToStr q
      | some (.str s) => s
      | _ => toString (acc.1.length + 1)
    if key ∈ acc.1 then acc
    else
      (acc.1 ++ [key],
        acc.2 ++ [objSet result "id" (match canonIntOfStr key with
          | some z => .num (z : ℚ)
          | none => .str key)])) (used0, [])

/-- The appended extra entries for a grading call. -/
def gradeExtras (content : List Char) (test answers : Option Json) : List Json :=
  (extrasFold (gradeRawResults (safeJsonParse content fallbackGrade))
    (gradeUsedIds0 content test answers)).2

/-- The full normalized results list (per-question entries followed by the
appended extras). -/
def gradeAllResults (content : List Char) (test answers : Option Json) :
    List Json :=
  gradeNormalizedList content test answers ++ gradeExtras content test answers

/-- Sum of a numeric field over a result list (lines 426-438; non-numeric
values are skipped). -/
def sumNumField (key : String) (results : List Json) : ℚ :=
  results.foldl (fun sum r => match objGet r key with
    | some (.num q) => sum + q
    | _ => sum) 0

/-- The recomputed aggregate percentage (line 440):
`Math.round((totalScore / totalMax) * 10000) / 100`, or 0 when no positive
max total. -/
def gradeOverallScore (content : List Char) (test answers : Option Json) : ℚ :=
  let totalMax := sumNumField "max" (gradeAllResults content test answers)
  let totalScore := sumNumField "score" (gradeAllResults content test answers)
  if 0 < totalMax then
    ((jsRound (totalScore / totalMax * 10000) : ℚ)) / 100
  else 0

/-- The final grade object (lines 441-453): the parsed model object with
`results`, `totalPoints` (`totalMax || model totalPoints || 100`) and the
recomputed `overallScore` written over it. -/
def gradeNormalize (content : List Char) (test answers : Option Json) : Json :=
  let gradeData := safeJsonParse content fallbackGrade
  let totalMax := sumNumField "max" (gradeAllResults content test answers)
  let tp : ℚ :=
    if totalMax ≠ 0 then totalMax
    else match objGet gradeData "totalPoints" with
      | some (.num q) => if q ≠ 0 then q else 100
      | _ => 100
  objSet (objSet (objSet gradeData "results" (.arr (gradeAllResults content test answers)))
      "totalPoints" (.num tp))
    "overallScore" (.num (gradeOverallScore content test answers))

/-- Model of the fallible `gradeWebDevTest` body after the chat-completion
call: the `TypeError` paths surface as a thrown error, every other input
normalizes totally. -/
def gradeWebDevTest (content : List Char) (test answers : Option Json) :
    Except String Json :=
  if gradeDataIsNull content then
    .error "Cannot read properties of null (reading results)"
  else if gradeThrows content test answers then
    .error "Cannot read properties of null (reading id)"
  else .ok (gradeNormalize content test answers)

/-! Tool dispatch, from `handleMcpRequest` (`mcp-handler.ts` lines 705-818)
and the direct-call branch of `sendToolCall`
(`src/src/lib/agent-coordinator.js` lines 246-263).  The downstream LLM is a
black box: `oracle` is the outcome of the single chat-completion call a tool
makes (`.error` for a rejected call), and `apiKeyOk` models the presence of
`OPENAI_API_KEY` (its absence makes `getOpenAI()` throw before any LLM
call).  The second component of `handleMcpRequest`'s result records whether
a downstream chat-completion call was made. -/

/-- The explanation fallback object (lines 515-522). -/
def fallbackExplanation : Json :=
  .obj [("isCorrect", .bool false),
    ("explanation", .str "Unable to generate explanation - please try again"),
    ("correctApproach", .str "Please refer to documentation"),
    ("commonMistake", .str "Various factors can cause errors"),
    ("practiceExercise", .str "Try practicing similar problems"),
    ("resources", .arr [.str "MDN Web Docs", .str "W3Schools"])]

/-- The concept fallback object (lines 566-573). -/
def fallbackConcept : Json :=
  .obj [("concept", .str "Web Development Concept"),
    ("explanation", .str "Unable to generate explanation - please try again"),
    ("examples", .arr [.str "Please refer to documentation"]),
    ("useCase", .str "Various use cases apply"),
    ("commonPitfalls", .arr [.str "Check documentation for best practices"]),
    ("nextSteps", .str "Continue learning and practicing")]

/-- The progress fallback object (lines 641-661). -/
def fallbackProgress : Json :=
  .obj [("performance", .obj [("accuracy", .num 50), ("totalQuestions", .num 0),
      ("correctAnswers", .num 0), ("improvementTrend", .str "stable"),
      ("learningVelocity", .num 1)]),
    ("difficulty", .obj [("current", .str "junior"), ("recommended", .str "junior"),
      ("reason", .str "Unable to analyze progress - please try again")]),
    ("weakAreas", .arr []), ("strongAreas", .arr []),
    ("recommendations", .obj [("immediate", .arr [.str "Try taking more tests"]),
      ("shortTerm", .arr [.str "Focus on fundamentals"]),
      ("longTerm", .arr [.str "Continue practicing"])])]

/-- The mocked progress stats (lines 666-693; no LLM call). -/
def progressStatsMock : Json :=
  .obj [("totalQuestions", .num 25), ("totalCorrect", .num 19),
    ("overallAccuracy", .num 76),
    ("categoryStats", .obj [
      ("HTML", .obj [("correct", .num 8), ("total", .num 10), ("accuracy", .num 80)]),
      ("CSS", .obj [("correct", .num 6), ("total", .num 8), ("accuracy", .num 75)]),
      ("JavaScript", .obj [("correct", .num 5), ("total", .num 7),
        ("accuracy", .num (mkRat 714 10))])]),
    ("weakAreas", .arr [.str "JavaScript Async", .str "CSS Grid"]),
    ("strongAreas", .arr [.str "HTML Semantics", .str "DOM Events"]),
    ("currentDifficulty", .str "junior"),
    ("recommendedDifficulty", .str "intermediate"),
    ("streak", .num 3), ("improvementTrend", .str "improving"),
    ("learningVelocity", .num (mkRat 13 10)),
    ("performance", .obj [("accuracy", .num 76), ("totalQuestions", .num 25),
      ("correctAnswers", .num 19), ("improvementTrend", .str "improving"),
      ("learningVelocity", .num (mkRat 13 10))])]

/-- Whether destructuring the value succeeds in JS (`const {...} = v` throws
only on `undefined` and `null`). -/
def argsOk : Option Json → Bool
  | none => false
  | some .null => false
  | some _ => true

/-- Property read through the optional argument object. -/
def argOf (args : Option Json) (k : String) : Option Json :=
  match args with
  | some a => objGet a k
  | none => none

/-- The requested question count (`const { numQuestions = 20 } = params`).
The model is restricted to numeric counts (the tool schema's type); a
non-numeric value falls back to the default 20, and JS `ToLength` clamping
is modelled by flooring at zero. -/
def numQuestionsArg (args : Option Json) : ℕ :=
  let q : ℚ := match argOf args "numQuestions" with
    | some (.num q) => q
    | _ => 20
  if 0 ≤ q then q.floor.toNat else 0

/-- The fixed tool registry of the dispatch chain (lines 740-754). -/
def registryToolNames : List String :=
  ["generate_jr_web_test", "grade_web_test", "explain_wrong_answer",
    "explain_web_concept", "track_learning_progress", "get_progress_stats"]

/-- The `getOpenAI()` configuration error (lines 58-67). -/
def apiKeyErrMsg : String := "OPENAI_API_KEY environment variable is not set"

/-- Whether `explainWrongAnswer`'s blank-answer check throws
(`studentAnswer.trim()` on a truthy non-string, line 486, before the LLM
call). -/
def explainTrimThrows (args : Option Json) : Bool :=
  match argOf args "studentAnswer" with
  | some (.str _) => false
  | some v => jsTruthy v
  | none => false

/-- Execute one registered tool (the `switch` of lines 757-789 together with
the agent-method bodies): result-or-thrown-error, and whether a downstream
chat-completion call was made. -/
def runTool (apiKeyOk : Bool) (oracle : Except String (List Char))
    (nm : String) (args : Option Json) : Except String Json × Bool :=
  if nm = "generate_jr_web_test" then
    if !apiKeyOk then (.error apiKeyErrMsg, false)
    else if !argsOk args then (.error "Cannot destructure property of undefined", false)
    else match oracle with
      | .error e => (.error e, true)
      | .ok content => (.ok (generateJrWebTest content (numQuestionsArg args)), true)
  else if nm = "grade_web_test" then
    if !apiKeyOk then (.error apiKeyErrMsg, false)
    else if !argsOk args then (.error "Cannot destructure property of undefined", false)
    else match oracle with
      | .error e => (.error e, true)
      | .ok content =>
          match gradeWebDevTest content (argOf args "test") (argOf args "answers") with
          | .ok r => (.ok r, true)
          | .error e => (.error e, true)
  else if nm = "explain_wrong_answer" then
    if !apiKeyOk then (.error apiKeyErrMsg, false)
    else if !argsOk args then (.error "Cannot destructure property of undefined", false)
    else if explainTrimThrows args then
      (.error "studentAnswer.trim is not a function", false)
    else match oracle with
      | .error e => (.error e, true)
      | .ok content => (.ok (safeJsonParse content fallbackExplanation), true)
  else if nm = "explain_web_concept" then
    if !apiKeyOk then (.error apiKeyErrMsg, false)
    else if !argsOk args then (.error "Cannot destructure property of undefined", false)
    else match oracle with
      | .error e => (.error e, true)
      | .ok content => (.ok (safeJsonParse content fallbackConcept), true)
  else if nm = "track_learning_progress" then
    if !apiKeyOk then (.error apiKeyErrMsg, false)
    else if !argsOk args then (.error "Cannot destructure property of undefined", false)
    else match oracle with
      | .error e => (.error e, true)
      | .ok content => (.ok (safeJsonParse content fallbackProgress), true)
  else if nm = "get_progress_stats" then (.ok progressStatsMock, false)
  else (.error ("Unknown tool: " ++ nm), false)

/-- A JSON-RPC result envelope `{jsonrpc, id, result}` (the `id` key is
present exactly when the request carried one). -/
def mkResultEnvelope (idOpt : Option Json) (result : Json) : Json :=
  .obj ([("jsonrpc", .str "2.0")] ++
    (match idOpt with
      | some v => [("id", v)]
      | none => []) ++
    [("result", result)])

/-- The `initialize` result object (lines 711-725). -/
def initResultObj : Json :=
  .obj [("protocolVersion", .str "2024-11-05"),
    ("capabilities", .obj [("tools", .obj [])]),
    ("serverInfo", .obj [("name", .str "GPT Test Trainer MCP Server"),
      ("version", .str "1.0.0")])]

/-- A successful tool-call envelope (lines 791-802): the tool result is
JSON-stringified into a single text content item. -/
def successEnvelope (idOpt : Option Json) (result : Json) : Json :=
  mkResultEnvelope idOpt (.obj [("content", .arr [.obj [("type", .str "text"),
    ("text", .str (jsonStringify result))]])])

/-- The catch-all error envelope (lines 806-817): code −32000 and `id: null`
regardless of the request's own id. -/
def errorEnvelope (m : String) : Json :=
  .obj [("jsonrpc", .str "2.0"), ("id", .null),
    ("error", .obj [("code", .num (-32000)), ("message", .str m)])]

/-- Model of `handleMcpRequest`: a total function returning the response
envelope (every internal throw is caught into `errorEnvelope`) and whether a
downstream chat-completion call was made. -/
def handleMcpRequest (apiKeyOk : Bool) (oracle : Except String (List Char))
    (req : Json) : Json × Bool :=
  match objGet req "method" with
  | some (.str "initialize") => (mkResultEnvelope (objGet req "id") initResultObj, false)
  | some (.str "tools/call") =>
      if !argsOk (objGet req "params") then
        (errorEnvelope "Cannot destructure property name of params", false)
      else
        match objGet ((objGet req "params").getD .null) "name" with
        | some (.str nm) =>
            if nm ∈ registryToolNames then
              match runTool apiKeyOk oracle nm
                  (objGet ((objGet req "params").getD .null) "arguments") with
              | (.ok result, flag) => (successEnvelope (objGet req "id") result, flag)
              | (.error m, flag) => (errorEnvelope m, flag)
            else (errorEnvelope ("Unknown tool: " ++ nm), false)
        | other =>
            (errorEnvelope ("Unknown tool: " ++
              (match other with
                | some v => jsToString v
                | none => "undefined")), false)
  | other =>
      (errorEnvelope ("Unknown method: " ++
        (match other with
          | some v => jsToString v
          | none => "undefined")), false)

/-- The request body the direct-call branch of `sendToolCall` builds
(lines 248-256). -/
def toolCallRequest (toolName : String) (args : Json) (rid : ℕ) : Json :=
  .obj [("jsonrpc", .str "2.0"), ("method", .str "tools/call"),
    ("params", .obj [("name", .str toolName), ("arguments", args)]),
    ("id", .num (rid : ℚ))]

/-- The direct-call branch of `sendToolCall` (lines 246-263): call
`handleMcpRequest` in-process; a truthy `error` member is re-thrown with
`result.error.message || "MCP tool call failed"`, otherwise `result.result`
is returned. -/
def sendToolCallDirect (apiKeyOk : Bool) (oracle : Except String (List Char))
    (toolName : String) (args : Json) (rid : ℕ) : Except String (Option Json) :=
  let resp := (handleMcpRequest apiKeyOk oracle (toolCallRequest toolName args rid)).1
  match objGet resp "error" with
  | some err =>
      if jsTruthy err then .error (errMsgOf err)
      else .ok (objGet resp "result")
  | none => .ok (objGet resp "result")

theorem mkResultEnvelope_error (idOpt : Option Json) (result : Json) :
    objGet (mkResultEnvelope idOpt result) "error" = none := by
  cases idOpt <;> rfl

theorem mkResultEnvelope_id (idOpt : Option Json) (result : Json) :
    objGet (mkResultEnvelope idOpt result) "id" = idOpt := by
  cases idOpt <;> rfl

theorem mkResultEnvelope_jsonrpc (idOpt : Option Json) (result : Json) :
    objGet (mkResultEnvelope idOpt result) "jsonrpc" = some (.str "2.0") := by
  cases idOpt <;> rfl

theorem handleResponse_errorEnvelope (m : String) (pending : List (ℕ × ℕ)) :
    handleResponse (errorEnvelope m) pending = (pending, none) := rfl

/-- C8: dispatching a tool name outside the fixed registry throws
immediately, before any agent is selected: no downstream chat-completion
call is made (the transport flag is `false`; the direct-call transport
writes no subprocess message and issues no HTTP request by construction),
and the coordinator's direct-call branch surfaces the failure to its caller
as a thrown error. -/
theorem unknown_tool_rejected_without_transport (apiKeyOk : Bool)
    (oracle : Except String (List Char)) (nm : String) (args : Json) (rid : ℕ)
    (h : nm ∉ registryToolNames) :
    (handleMcpRequest apiKeyOk oracle (toolCallRequest nm args rid)).2 = false ∧
      ∃ msg, sendToolCallDirect apiKeyOk oracle nm args rid = .error msg := by
  have hreq : handleMcpRequest apiKeyOk oracle (toolCallRequest nm args rid) =
      (errorEnvelope ("Unknown tool: " ++ nm), false) := by
    change (if nm ∈ registryToolNames then _ else _) = _
    rw [if_neg h]
  constructor
  · rw [hreq]
  · refine ⟨errMsgOf (.obj [("code", .num (-32000)),
      ("message", .str ("Unknown tool: " ++ nm))]), ?_⟩
    simp only [sendToolCallDirect, hreq]
    rfl

/-- C8 witness: the concrete unregistered tool name `"validate_web_code"`
(present in the coordinator's advertised list but not in the dispatcher's
registry) is rejected without any LLM call. -/
theorem unknown_tool_rejected_without_transport_witness :
    (handleMcpRequest true (.ok "x".toList)
        (toolCallRequest "validate_web_code" (.obj []) 3)).2 = false ∧
      ∃ msg, sendToolCallDirect true (.ok "x".toList) "validate_web_code"
        (.obj []) 3 = .error msg :=
  unknown_tool_rejected_without_transport true (.ok "x".toList)
    "validate_web_code" (.obj []) 3 (by decide)

/-- C10: `handleMcpRequest` is a total function (the embedding returns an
envelope on every input — it never throws and never rejects), and every
response is either a success envelope that echoes the request's `id` and
carries no `error` member, or the catch-all error envelope with
`error.code = -32000` and `id: null` — so a failing request's own id is
never echoed back, and `handleResponse` can never pair such an error with a
pending request (its `null` id fails the truthiness guard). -/
theorem handle_mcp_request_error_envelope (apiKeyOk : Bool)
    (oracle : Except String (List Char)) (req : Json) :
    (∃ r, (handleMcpRequest apiKeyOk oracle req).1 =
        mkResultEnvelope (objGet req "id") r ∧
      objGet (handleMcpRequest apiKeyOk oracle req).1 "error" = none ∧
      objGet (handleMcpRequest apiKeyOk oracle req).1 "id" = objGet req "id") ∨
    (∃ m, (handleMcpRequest apiKeyOk oracle req).1 = errorEnvelope m ∧
      objGet (handleMcpRequest apiKeyOk oracle req).1 "id" = some .null ∧
      objGet (handleMcpRequest apiKeyOk oracle req).1 "error" =
        some (.obj [("code", .num (-32000)), ("message", .str m)]) ∧
      ∀ pending, handleResponse (handleMcpRequest apiKeyOk oracle req).1 pending =
        (pending, none)) := by
  unfold handleMcpRequest
  split
  · exact Or.inl ⟨initResultObj, rfl, mkResultEnvelope_error _ _, mkResultEnvelope_id _ _⟩
  · split
    · exact Or.inr ⟨_, rfl, rfl, rfl, fun pending => rfl⟩
    · split
      · split
        · split
          · exact Or.inl ⟨_, rfl, mkResultEnvelope_error _ _, mkResultEnvelope_id _ _⟩
          · exact Or.inr ⟨_, rfl, rfl, rfl, fun pending => rfl⟩
        · exact Or.inr ⟨_, rfl, rfl, rfl, fun pending => rfl⟩
      · exact Or.inr ⟨_, rfl, rfl, rfl, fun pending => rfl⟩
  · exact Or.inr ⟨_, rfl, rfl, rfl, fun pending => rfl⟩

/-- Program counter of one concurrent `callTool` invocation. -/
inductive CallerPC where
  | start
  | awaitingInit
  | finished
deriving DecidableEq, Repr

/-- Event-loop state for two concurrent callers on one coordinator. -/
structure TwoCallers where
  isConnected : Bool
  handshakes : ℕ
  pcA : CallerPC
  pcB : CallerPC
deriving Repr

/-- A fresh coordinator with two `callTool` invocations about to run. -/
def twoCallersInit : TwoCallers := ⟨false, 0, .start, .start⟩

/-- Replace one caller's program counter. -/
def setPc (who : Bool) (s : TwoCallers) (pc : CallerPC) : TwoCallers :=
  if who then { s with pcB := pc } else { s with pcA := pc }

/-- Run one caller's next synchronous segment, up to its next suspension
point or completion. -/
def runSegment (who : Bool) (s : TwoCallers) : TwoCallers :=
  match (if who then s.pcB else s.pcA) with
  | .start =>
      if s.isConnected then setPc who s .finished
      else
        { setPc who s .awaitingInit with handshakes := s.handshakes + 1 }
  | .awaitingInit => { setPc who s .finished with isConnected := true }
  | .finished => s

/-- Run the event loop under an explicit schedule of caller segments. -/
def runSched (sched : List Bool) (s : TwoCallers) : TwoCallers :=
  sched.foldl (fun st w => runSegment w st) s

/-- C1: two concurrent `callTool` invocations issued on a fresh coordinator
before the first connection completes, interleaved at the `initialize`
`await` point (the canonical event-loop schedule A-segment, B-segment,
A-resume, B-resume), both complete — but two `initialize` handshakes are
performed, not one: each caller observes `isConnected = false` in
`sendToolCall` and again at `initialize`'s line-37 early return, and no
shared in-flight connection promise exists to deduplicate them.  This
refutes the claimed single-handshake guarantee on the code as written. -/
theorem concurrent_calltool_double_handshake :
    (runSched [false, true, false, true] twoCallersInit).handshakes = 2 ∧
      (runSched [false, true, false, true] twoCallersInit).pcA = .finished ∧
      (runSched [false, true, false, true] twoCallersInit).pcB = .finished ∧
      (runSched [false, true, false, true] twoCallersInit).isConnected = true := by
  decide

/-! Sidecar shutdown, from `cleanup` (`src/src/lib/mcp-manager.js`
lines 112-124) and `AgentCoordinator.shutdown`
(`src/src/lib/agent-coordinator.js` lines 476-482).  `cleanup` sends
SIGTERM to a live process handle, schedules a 5-second `setTimeout` whose
callback re-reads the module-level `mcpProcess` and sends SIGKILL when it
is still alive and unkilled — and then, still synchronously, sets
`mcpProcess = null`.  The callback therefore always finds `null` (and Node
sets `child.killed` at SIGTERM delivery, so its second conjunct would fail
too); no SIGKILL is ever delivered.  `shutdown` sends SIGTERM only and
schedules nothing. -/

/-- A delivered POSIX signal. -/
inductive Sig where
  | sigterm
  | sigkill
deriving DecidableEq, Repr

/-- A child-process handle; `killed` is Node's flag that some signal was
delivered through `kill()` (not that the process exited). -/
structure ChildProc where
  killed : Bool
deriving DecidableEq, Repr

/-- The module-level state of `mcp-manager.js`. -/
structure MgrState where
  mcpProcess : Option ChildProc
  isConnected : Bool
deriving DecidableEq, Repr

/-- Model of `cleanup()` (lines 112-124): the new module state, the signals
sent synchronously, and whether the 5-second SIGKILL timer was scheduled.
The final `isConnected = false; mcpProcess = null` assignments run before
the event loop can fire any timer. -/
def cleanup (s : MgrState) : MgrState × List Sig × Bool :=
  match s.mcpProcess with
  | some p =>
      if !p.killed then (⟨none, false⟩, [.sigterm], true)
      else (⟨none, false⟩, [], false)
  | none => (⟨none, false⟩, [], false)

/-- Model of the scheduled timer callback body (lines 116-120), executed
against the module state as it is five seconds later. -/
def killTimerCallback (s : MgrState) : MgrState × List Sig :=
  match s.mcpProcess with
  | some p =>
      if !p.killed then ({ s with mcpProcess := some ⟨true⟩ }, [.sigkill])
      else (s, [])
  | none => (s, [])

/-- Model of `AgentCoordinator.shutdown` (lines 476-482): SIGTERM only,
no escalation is ever scheduled. -/
def shutdownSignals (p : Option ChildProc) : List Sig :=
  match p with
  | some _ => [.sigterm]
  | none => []

/-- C7: stopping a live sidecar sends SIGTERM and schedules the 5-second
escalation, but because `cleanup` nulls the module-level `mcpProcess`
synchronously right after scheduling it, the timer callback finds no
process and the forced SIGKILL never fires — even when the sidecar ignored
SIGTERM and is still alive when the grace period expires.  The
coordinator's own `shutdown` never even schedules a SIGKILL.  This
evidences the code bug against the claimed "the forced kill actually
fires". -/
theorem cleanup_forced_kill_never_fires :
    (cleanup ⟨some ⟨false⟩, true⟩).2.1 = [.sigterm] ∧
      (cleanup ⟨some ⟨false⟩, true⟩).2.2 = true ∧
      (killTimerCallback (cleanup ⟨some ⟨false⟩, true⟩).1).2 = [] ∧
      shutdownSignals (some ⟨false⟩) = [.sigterm] := by
  decide

end SelfTest
